import Mathlib

/-!
Shallow embedding of `src/dltool_optimized.py`, a DAT-driven ROM download
tool.  The definitions below translate, branch by branch, the parts of the
source that the verified properties are about:

* `prefixes`, `scalePower`, `scale1024Unit` — source lines 67-78 (`scale1024`)
* `addWanted`, `buildWanted`                — source lines 182-187 (the
  deduplicated `wantedroms` list)
* `compareRoms`                             — source lines 441-445 (the
  `wantedfiles` / `missingroms` partition)
* `planStep`                                — source lines 470-524 (the
  per-file download decision, i.e. the variables `proceed_with_download`,
  `resume_download`, `file_open_mode`, `local_file_size`,
  `remote_file_size` after the local-file check and the HEAD probe)
* `effectiveTotal`, `chunkReports`, `barReports`, `processFile`
                                            — source lines 527-606 (the GET
  request, the chunked write loop, and the progress-bar updates)
* `runBatch`, `endLines`, `missingReport`, `runProgram`
                                            — source lines 454-462 and
  608-622 (the sequential per-file loop and the batch-level output)

Network and filesystem behaviour is an explicit oracle (`NetEnv`): the HEAD
probe may fail or return an optional content-length, the GET may fail, and
the chunk stream may be interrupted (by a network or filesystem exception)
after any number of chunks have been written.  Byte strings are lists of
naturals.
-/

namespace Dltool

/-- File contents as a list of byte values. -/
abbrev Bytes := List Nat

/-- The two Python file-open modes the source uses: `'wb'` (truncating
write, line 473/512) and `'ab'` (append, line 504). -/
inductive FileMode
  | wb
  | ab
deriving DecidableEq, Repr

/-- Why a file is skipped.  Each constructor corresponds to one branch of
the source that sets `proceed_with_download = False`: `--skip-existing`
(line 482), exact size match (line 507), local file present with no
content-length (line 515), and local file present with the HEAD request
failing (line 522). -/
inductive SkipReason
  | userRequested
  | alreadySatisfied
  | remoteSizeUnknown
  | headNetworkError
deriving DecidableEq, Repr

/-- Classification of the per-file decision, one constructor per distinct
branch (and log message) of source lines 480-524. -/
inductive PlanOutcome
  | skip (reason : SkipReason)
  | resume (fromOffset : Nat)
  | restart
  | fresh
deriving DecidableEq, Repr

/-- `true` exactly when the branch leaves `proceed_with_download = True`. -/
def PlanOutcome.proceeds : PlanOutcome → Bool
  | .skip _ => false
  | _ => true

/-- The source's per-file decision variables (initialised at lines
470-475, mutated by the branches of lines 477-524). -/
structure DlVars where
  proceed_with_download : Bool
  resume_download : Bool
  file_open_mode : FileMode
  local_file_size : Nat
  remote_file_size : Option Nat
deriving DecidableEq, Repr

/-- Result of the HEAD size probe (source lines 490-497): a network
error (`Except.error`), or a response carrying an optional parsed
content-length. -/
abbrev HeadResult := Except Unit (Option Nat)

instance {ε α : Type} [DecidableEq ε] [DecidableEq α] :
    DecidableEq (Except ε α) := fun a b =>
  match a, b with
  | .error e₁, .error e₂ =>
    if h : e₁ = e₂ then isTrue (by rw [h])
    else isFalse (fun hh => h (by injection hh))
  | .error _, .ok _ => isFalse (fun hh => by injection hh)
  | .ok _, .error _ => isFalse (fun hh => by injection hh)
  | .ok a₁, .ok a₂ =>
    if h : a₁ = a₂ then isTrue (by rw [h])
    else isFalse (fun hh => h (by injection hh))

/-- Source lines 470-524: given the `--skip-existing` flag, the local
file (`none` when `os.path.isfile` is false, otherwise its contents) and
the HEAD result, compute the decision variables together with the branch
classification.  Each match arm is one source branch:

* local file present and `args.skipexisting`       — lines 481-483
* local present, HEAD raised                       — lines 519-523
* local present, no content-length                 — lines 514-516
* local present, known remote size: `<` / `==` / `>` — lines 501-513
* local absent                                     — lines 494-497, 517, 524
  (`proceed_with_download` stays `True`, `remote_file_size` is the parsed
  content-length if any). -/
def planStep (skipexisting : Bool) (localFile : Option Bytes)
    (head : HeadResult) : DlVars × PlanOutcome :=
  match localFile with
  | some content =>
    let L := content.length
    if skipexisting then
      (⟨false, false, .wb, L, none⟩, .skip .userRequested)
    else
      match head with
      | .error _ => (⟨false, false, .wb, L, none⟩, .skip .headNetworkError)
      | .ok none => (⟨false, false, .wb, L, none⟩, .skip .remoteSizeUnknown)
      | .ok (some R) =>
        if L < R then
          (⟨true, true, .ab, L, some R⟩, .resume L)
        else if L = R then
          (⟨false, false, .wb, L, some R⟩, .skip .alreadySatisfied)
        else
          -- line 513: `local_file_size = 0` (treat as a new download)
          (⟨true, false, .wb, 0, some R⟩, .restart)
  | none =>
    match head with
    | .error _ => (⟨true, false, .wb, 0, none⟩, .fresh)
    | .ok r => (⟨true, false, .wb, 0, r⟩, .fresh)

/-- A network request issued for one file: the HEAD size probe (line 490)
or the GET (line 545), the latter carrying the `Range: bytes=<offset>-`
start when resuming (line 536). -/
inductive Request
  | head
  | get (rangeFrom : Option Nat)
deriving DecidableEq, Repr

/-- An exception interrupting the chunked write loop (lines 586-594):
a network error of the streaming response (caught at line 601), a
filesystem error of the write (caught at line 603), or any other
exception (caught at line 605). -/
inductive MidErr
  | network
  | filesystem
  | other
deriving DecidableEq, Repr

/-- Server response to the GET (lines 545-561 read its headers, lines
586-594 its body).  `status` records the HTTP status code: the source
never inspects it beyond `raise_for_status` (an error status is the
`Except.error` case of `NetEnv.getResult` instead), which is why no field
of `processFile`'s result depends on it.  `contentRange` is `none` when
the `content-range` header is absent, `some none` when present but the
total does not parse (regex at line 552), `some (some t)` when the total
`t` parses.  `chunks` are the body chunks actually delivered and written;
`midErr` is `some e` when an exception `e` ends the loop after them. -/
structure GetResp where
  status : Nat
  contentRange : Option (Option Nat)
  contentLength : Option Nat
  chunks : List Bytes
  midErr : Option MidErr
deriving DecidableEq, Repr

/-- The network oracle for one file: the HEAD outcome and the GET
outcome. -/
structure NetEnv where
  headResult : HeadResult
  getResult : Except Unit GetResp
deriving DecidableEq, Repr

/-- Why a download attempt failed: the GET request itself raised (caught
at line 601), or the stream/write loop was interrupted (lines 601-606). -/
inductive FailReason
  | getNetwork
  | midStream (e : MidErr)
deriving DecidableEq, Repr

/-- Terminal state of one file's attempt: the "Downloaded" log line
(599), one of the skip log lines, or one of the error log lines
(601-606). -/
inductive Outcome
  | downloaded
  | skipped (reason : SkipReason)
  | failed (err : FailReason)
deriving DecidableEq, Repr

def Outcome.isDownloaded : Outcome → Bool
  | .downloaded => true
  | _ => false

def Outcome.isSkipped : Outcome → Bool
  | .skipped _ => true
  | _ => false

def Outcome.isFailed : Outcome → Bool
  | .failed _ => true
  | _ => false

/-- Everything observable about one file's processing: the requests
issued, the final on-disk contents (`none` if the file never existed),
the terminal outcome, the successive values passed to `pbar.update`, and
the progress bar's `max_value` when one was created. -/
structure FileResult where
  requests : List Request
  finalFile : Option Bytes
  outcome : Outcome
  reported : List Nat
  pbarMax : Option Nat
deriving DecidableEq, Repr

/-- Source lines 548-561: the total used for the progress bar.  It starts
as `remote_file_size`; if a `content-range` header is present on a
resumed download its parsed total wins; otherwise, when the HEAD gave no
size but the GET has a `content-length`, that is used (plus the local
size when resuming — dead in practice, since resuming implies a known
remote size, but translated faithfully; note `effective !=
remote_file_size` at line 558 is always true there because
`remote_file_size` is `None` in that branch). -/
def effectiveTotal (v : DlVars) (g : GetResp) : Option Nat :=
  match g.contentRange, v.resume_download with
  | some parsed, true =>
    match parsed with
    | some t => some t
    | none => v.remote_file_size
  | _, _ =>
    match v.remote_file_size, g.contentLength with
    | none, some cl =>
      if v.resume_download then some (cl + v.local_file_size) else some cl
    | r, _ => r

/-- Source lines 586-592: the value reported for each chunk.  The running
counter starts at `start`, each chunk adds its length, and the reported
value is clamped to the bar's `max_value`
(`pbar.update(min(current_progress_bytes, pbar.max_value))`). -/
def chunkReports (start maxv : Nat) : List Bytes → List Nat
  | [] => []
  | c :: rest =>
    min (start + c.length) maxv :: chunkReports (start + c.length) maxv rest

/-- Source lines 572-576: the initial `pbar.update` — the local size when
resuming with `0 < local_file_size < max_value`, `0` when not resuming,
nothing otherwise. -/
def initReport (v : DlVars) (t : Nat) : List Nat :=
  if v.resume_download && decide (0 < v.local_file_size)
      && decide (v.local_file_size < t) then
    [v.local_file_size]
  else if !v.resume_download then
    [0]
  else
    []

/-- All values passed to `pbar.update` during one transfer with an active
bar of `max_value = t`: the initial update (lines 572-576), then one
update per chunk (lines 586-592), then — only when the stream completes —
the final `pbar.finish()` (line 597), which updates to `max_value`. -/
def barReports (v : DlVars) (g : GetResp) (t : Nat) : List Nat :=
  let start := if v.resume_download then v.local_file_size else 0
  let mid := chunkReports start t g.chunks
  match g.midErr with
  | some _ => initReport v t ++ mid
  | none => initReport v t ++ (mid ++ [t])

/-- Source lines 462-606, one iteration of the per-file loop.  The plan
phase (`planStep`) runs first; the HEAD is issued unless the
`--skip-existing` branch fired (the HEAD sits inside
`if proceed_with_download:` at line 486, and only that branch can have
cleared the flag before it).  If the plan proceeds, the GET is issued
with the range start when resuming; a GET error leaves the file untouched
(the exception is raised before `open`, line 584).  Otherwise the file is
opened (truncated for `'wb'`, kept for `'ab'`), the delivered chunks are
appended, progress is reported, and a mid-stream exception leaves the
bytes written so far on disk (the handlers at lines 601-606 only log). -/
def processFile (skipexisting : Bool) (localFile : Option Bytes)
    (env : NetEnv) : FileResult :=
  let vp := planStep skipexisting localFile env.headResult
  let v := vp.1
  let headReqs : List Request :=
    if localFile.isSome && skipexisting then [] else [.head]
  match vp.2 with
  | .skip r => ⟨headReqs, localFile, .skipped r, [], none⟩
  | _ =>
    let getReq : Request :=
      .get (if v.resume_download then some v.local_file_size else none)
    match env.getResult with
    | .error _ =>
      ⟨headReqs ++ [getReq], localFile, .failed .getNetwork, [], none⟩
    | .ok g =>
      let base : Bytes :=
        match v.file_open_mode with
        | .wb => []
        | .ab => localFile.getD []
      let content := base ++ g.chunks.flatten
      let pbarMax : Option Nat :=
        match effectiveTotal v g with
        | some t => if 0 < t then some t else none
        | none => none
      let reported : List Nat :=
        match pbarMax with
        | some t => barReports v g t
        | none => []
      match g.midErr with
      | some e =>
        ⟨headReqs ++ [getReq], some content, .failed (.midStream e),
          reported, pbarMax⟩
      | none =>
        ⟨headReqs ++ [getReq], some content, .downloaded, reported, pbarMax⟩

/-- One entry of `wantedfiles` together with the external state its
processing will see: the local file at `localpath` and the network's
behaviour for its URL. -/
structure FileJob where
  name : String
  localFile : Option Bytes
  env : NetEnv
deriving DecidableEq, Repr

/-- Source line 462: `for wantedfile_details in wantedfiles:` — strictly
sequential, one result per file. -/
def runBatch (skipexisting : Bool) : List FileJob → List FileResult
  | [] => []
  | j :: rest =>
    processFile skipexisting j.localFile j.env :: runBatch skipexisting rest

/-- The batch-level log lines of source lines 454-457 and 608-622 (the
per-file lines live in each `FileResult` instead). -/
inductive SummaryLine
  | listingMode
  | startingDownload (total : Nat)
  | downloadingComplete
  | noFilesNeeded
  | missingHeader (count : Nat)
  | missingRom (name : String)
  | allFound
deriving DecidableEq, Repr

/-- Source lines 454-457 and 608-612: the listing-mode notice, or the
"Starting download of N files" line followed (after the loop) by
"Downloading complete!" / "No files needed downloading.".  The redundant
`not args.list` tests of lines 609/611 are kept as written. -/
def endLines (listFlag : Bool) (total : Nat) : List SummaryLine :=
  if listFlag then
    [.listingMode]
  else
    .startingDownload total ::
      (if decide (0 < total) && !listFlag then [.downloadingComplete]
       else if !listFlag then [.noFilesNeeded]
       else [])

/-- Source lines 616-622: the missing-ROMs report. -/
def missingReport (missingroms : List String) : List SummaryLine :=
  match missingroms with
  | [] => [.allFound]
  | _ =>
    .missingHeader missingroms.length :: missingroms.map .missingRom

/-- The observable result of the whole run (after catalog matching): the
ordered per-file results and the batch-level output lines. -/
structure ProgramResult where
  results : List FileResult
  lines : List SummaryLine
deriving DecidableEq, Repr

/-- Source lines 453-622: with `-l` the per-file loop is not entered at
all; otherwise every wanted file is processed in order.  The batch-level
lines follow, ending with the missing-ROMs report. -/
def runProgram (listFlag skipexisting : Bool) (wantedfiles : List FileJob)
    (missingroms : List String) : ProgramResult :=
  { results := if listFlag then [] else runBatch skipexisting wantedfiles
    lines := endLines listFlag wantedfiles.length ++ missingReport missingroms }

/-- Source lines 182-187: a `<game name="...">` basename is appended to
`wantedroms` only if not already present. -/
def addWanted (wantedroms : List String) (basename : String) : List String :=
  if basename ∈ wantedroms then wantedroms else wantedroms ++ [basename]

/-- The `wantedroms` list produced by the DAT loop, folding `addWanted`
over the game names in document order. -/
def buildWanted (games : List String) : List String :=
  games.foldl addWanted []

/-- Source lines 441-445: each name of `wantedroms` is appended to
`wantedfiles` (as `availableroms[name]`, here `avail name`) when the
server has it, and to `missingroms` otherwise. -/
def compareRoms {α : Type} : List String → (String → Option α) →
    List α × List String
  | [], _ => ([], [])
  | n :: rest, avail =>
    let r := compareRoms rest avail
    match avail n with
    | some info => (info :: r.1, r.2)
    | none => (r.1, n :: r.2)

/-- Source line 69: the unit list of `scale1024`. -/
def prefixes : List String :=
  ["B", "KiB", "MiB", "GiB", "TiB", "PiB", "EiB", "ZiB", "YiB"]

/-- Source lines 70-74: the selected power of 1024.  For `val_bytes <= 0`
the power is `0` and no logarithm is taken; otherwise
`int(math.log(val_bytes, 2) / 10)` — the floor of the base-2 logarithm
divided by 10, i.e. `Nat.log 2 val_bytes / 10` — clamped by `min` to
`len(prefixes) - 1`. -/
def scalePower (val_bytes : Int) : Nat :=
  if val_bytes ≤ 0 then 0
  else min (Nat.log 2 val_bytes.toNat / 10) (prefixes.length - 1)

/-- Source line 77: `unit = prefixes[power]`.  The `getD` default is
irrelevant because the index is proved in bounds. -/
def scale1024Unit (val_bytes : Int) : String :=
  prefixes.getD (scalePower val_bytes) "B"

/-- Skip reasons as the spec's decision table names them (§4.3 rules 1,
2 and 6). -/
inductive SpecSkipReason
  | userRequested
  | remoteUnknownLocalPresent
  | alreadySatisfied
deriving DecidableEq, Repr

/-- The spec's `TransferPlan` (§3). -/
inductive SpecPlan
  | Skip (reason : SpecSkipReason)
  | Resume (fromOffset : Nat)
  | Restart
  | FreshFetch
deriving DecidableEq, Repr

/-- Modelled from the spec: the decision table of §4.3, written from the
spec's words (rules 1-7, evaluated in order) and used only as the
refinement target for the code's `planStep`.  `localSize` is `none` when
the local file is absent, `remote` is `none` when the remote size is
unknown. -/
def specPlan (localSize : Option Nat) (remote : Option Nat)
    (skipExisting : Bool) : SpecPlan :=
  match localSize with
  | some L =>
    if skipExisting then .Skip .userRequested
    else
      match remote with
      | none => .Skip .remoteUnknownLocalPresent
      | some R =>
        if L < R then .Resume L
        else if L = R then .Skip .alreadySatisfied
        else .Restart
  | none => .FreshFetch

/-- View of the code's plan classification as a spec plan.  The code's
two "remote size unavailable" skip branches (no content-length / HEAD
error) both realise the spec's rule 2. -/
def PlanOutcome.toSpec : PlanOutcome → SpecPlan
  | .skip .userRequested => .Skip .userRequested
  | .skip .alreadySatisfied => .Skip .alreadySatisfied
  | .skip .remoteSizeUnknown => .Skip .remoteUnknownLocalPresent
  | .skip .headNetworkError => .Skip .remoteUnknownLocalPresent
  | .resume L => .Resume L
  | .restart => .Restart
  | .fresh => .FreshFetch

/-- The remote size as the spec sees it: a failed probe and a missing
length header both mean "unknown" (§4.1). -/
def headView : HeadResult → Option Nat
  | .error _ => none
  | .ok r => r

end Dltool

namespace Dltool

/-! ### Helper lemmas -/

lemma runBatch_length (s : Bool) (jobs : List FileJob) :
    (runBatch s jobs).length = jobs.length := by
  induction jobs with
  | nil => rfl
  | cons j rest ih => simp [runBatch, ih]

lemma outcome_counts (rs : List FileResult) :
    (rs.filter (fun r => r.outcome.isDownloaded)).length
      + (rs.filter (fun r => r.outcome.isSkipped)).length
      + (rs.filter (fun r => r.outcome.isFailed)).length = rs.length := by
  induction rs with
  | nil => rfl
  | cons r rest ih =>
    cases h : r.outcome <;>
      simp [List.filter_cons, h, Outcome.isDownloaded, Outcome.isSkipped,
        Outcome.isFailed] at ih ⊢ <;>
      omega

lemma addWanted_nodup (acc : List String) (b : String) (h : acc.Nodup) :
    (addWanted acc b).Nodup := by
  unfold addWanted
  split
  · exact h
  · rename_i hb
    simp [List.nodup_append, h, hb]

lemma foldl_addWanted_nodup (games : List String) :
    ∀ acc : List String, acc.Nodup → (games.foldl addWanted acc).Nodup := by
  induction games with
  | nil => intro acc h; simpa using h
  | cons g rest ih => intro acc h; exact ih _ (addWanted_nodup acc g h)

lemma compareRoms_fst {α : Type} (wanted : List String)
    (avail : String → Option α) :
    (compareRoms wanted avail).1 = wanted.filterMap avail := by
  induction wanted with
  | nil => rfl
  | cons n rest ih =>
    simp only [compareRoms]
    cases h : avail n <;> simp [List.filterMap_cons, h, ih]

lemma compareRoms_snd {α : Type} (wanted : List String)
    (avail : String → Option α) :
    (compareRoms wanted avail).2 = wanted.filter (fun n => (avail n).isNone) := by
  induction wanted with
  | nil => rfl
  | cons n rest ih =>
    simp only [compareRoms]
    cases h : avail n <;> simp [List.filter_cons, h, ih]

lemma compareRoms_length {α : Type} (wanted : List String)
    (avail : String → Option α) :
    (compareRoms wanted avail).1.length + (compareRoms wanted avail).2.length
      = wanted.length := by
  induction wanted with
  | nil => rfl
  | cons n rest ih =>
    simp only [compareRoms]
    cases h : avail n <;> simp [h] <;> omega

lemma chunkReports_mem_le :
    ∀ (l : List Bytes) (start maxv x : Nat),
      x ∈ chunkReports start maxv l → x ≤ maxv := by
  intro l
  induction l with
  | nil => intro start maxv x hx; simp [chunkReports] at hx
  | cons c rest ih =>
    intro start maxv x hx
    simp only [chunkReports, List.mem_cons] at hx
    rcases hx with h | h
    · omega
    · exact ih _ _ _ h

lemma chunkReports_mem_ge :
    ∀ (l : List Bytes) (start maxv x : Nat),
      x ∈ chunkReports start maxv l → min start maxv ≤ x := by
  intro l
  induction l with
  | nil => intro start maxv x hx; simp [chunkReports] at hx
  | cons c rest ih =>
    intro start maxv x hx
    simp only [chunkReports, List.mem_cons] at hx
    rcases hx with h | h
    · omega
    · have := ih (start + c.length) maxv x h
      omega

lemma chunkReports_pairwise :
    ∀ (l : List Bytes) (start maxv : Nat),
      List.Pairwise (· ≤ ·) (chunkReports start maxv l) := by
  intro l
  induction l with
  | nil => intro start maxv; simp [chunkReports]
  | cons c rest ih =>
    intro start maxv
    simp only [chunkReports]
    constructor
    · intro y hy
      have := chunkReports_mem_ge rest (start + c.length) maxv y hy
      omega
    · exact ih _ _

end Dltool

namespace Dltool

lemma initReport_le_start (v : DlVars) (t : Nat) :
    ∀ y ∈ initReport v t,
      y ≤ min (if v.resume_download then v.local_file_size else 0) t := by
  intro y hy
  unfold initReport at hy
  split at hy
  · rename_i hA
    simp only [Bool.and_eq_true, decide_eq_true_eq] at hA
    simp only [List.mem_singleton] at hy
    rcases hA with ⟨⟨hr, _⟩, hlt⟩
    subst hy
    simp only [hr, if_true]
    omega
  · split at hy
    · rename_i hnA hnr
      simp only [List.mem_singleton] at hy
      subst hy
      omega
    · simp at hy

lemma initReport_pairwise (v : DlVars) (t : Nat) :
    List.Pairwise (α := Nat) (· ≤ ·) (initReport v t) := by
  unfold initReport
  split
  · simp
  · split <;> simp

lemma barReports_mem_le (v : DlVars) (g : GetResp) (t : Nat) :
    ∀ x ∈ barReports v g t, x ≤ t := by
  intro x hx
  unfold barReports at hx
  rcases hme : g.midErr with _ | e <;> rw [hme] at hx <;>
    simp only [List.mem_append] at hx
  · rcases hx with hx | hx | hx
    · have := initReport_le_start v t x hx
      omega
    · exact chunkReports_mem_le _ _ _ _ hx
    · simp only [List.mem_singleton] at hx
      omega
  · rcases hx with hx | hx
    · have := initReport_le_start v t x hx
      omega
    · exact chunkReports_mem_le _ _ _ _ hx

lemma barReports_pairwise (v : DlVars) (g : GetResp) (t : Nat) :
    List.Pairwise (· ≤ ·) (barReports v g t) := by
  unfold barReports
  have hcross : ∀ a ∈ initReport v t,
      ∀ b ∈ chunkReports (if v.resume_download then v.local_file_size else 0)
        t g.chunks, a ≤ b := by
    intro a ha b hb
    have h1 := initReport_le_start v t a ha
    have h2 := chunkReports_mem_ge _ _ _ _ hb
    omega
  rcases hme : g.midErr with _ | e
  · rw [List.pairwise_append]
    refine ⟨initReport_pairwise v t, ?_, ?_⟩
    · rw [List.pairwise_append]
      refine ⟨chunkReports_pairwise _ _ _, by simp, ?_⟩
      intro a ha b hb
      simp only [List.mem_singleton] at hb
      have := chunkReports_mem_le _ _ _ _ ha
      omega
    · intro a ha b hb
      simp only [List.mem_append, List.mem_singleton] at hb
      rcases hb with hb | hb
      · exact hcross a ha b hb
      · have := initReport_le_start v t a ha
        omega
  · rw [List.pairwise_append]
    exact ⟨initReport_pairwise v t, chunkReports_pairwise _ _ _, hcross⟩

end Dltool

namespace Dltool

/-- C5: when the skip-existing flag is set and the destination file
exists locally (any size), the file is skipped unconditionally — no HEAD
probe and no GET are issued, whatever the remote size would have been,
and the file is left untouched. -/
theorem skip_existing_issues_no_requests :
    ∀ (c : Bytes) (env : NetEnv),
      processFile true (some c) env
        = ⟨[], some c, .skipped .userRequested, [], none⟩ := by
  intro c env
  rfl

/-- C8: with the list-only flag set, the per-file loop is never entered —
no planning, no HEAD, no GET, zero transfer outcomes — and the batch-level
output is just the listing-mode notice followed by the missing-ROMs
report. -/
theorem list_only_produces_no_transfers :
    ∀ (s : Bool) (wantedfiles : List FileJob) (missingroms : List String),
      (runProgram true s wantedfiles missingroms).results = []
      ∧ (runProgram true s wantedfiles missingroms).lines
          = SummaryLine.listingMode :: missingReport missingroms := by
  intro s wf mr
  exact ⟨rfl, rfl⟩

/-- C2 (counterexample): a resumed transfer whose server ignores the range
request and returns the full content (status 200, no content-range) is
appended to the existing local file: local `[7]` with remote size 2 and a
full body `[7, 9]` ends as `[7, 7, 9]`, reported as downloaded — not the
`[7, 9]` that the claimed fallback-to-Restart (truncate and refetch)
would produce. -/
theorem resume_no_partial_check_cex :
    (processFile false (some [7])
        ⟨.ok (some 2), .ok ⟨200, none, some 2, [[7, 9]], none⟩⟩).finalFile
      = some [7, 7, 9]
    ∧ (processFile false (some [7])
        ⟨.ok (some 2), .ok ⟨200, none, some 2, [[7, 9]], none⟩⟩).outcome
      = .downloaded
    ∧ ([7, 7, 9] : Bytes) ≠ [7, 9] := by
  exact ⟨rfl, rfl, by decide⟩

/-- C2 (amended): the code performs no partial-content check at all.  On
a resumed attempt (local smaller than the known remote size) the response
body — whatever the server returned, range-honoring or not — is appended
to the existing file; an exact size match leaves the file untouched; a
larger local file is truncated and replaced by the body. -/
theorem resume_appends_unconditionally :
    ∀ (old : Bytes) (R : Nat) (g : GetResp),
      (processFile false (some old) ⟨.ok (some R), .ok g⟩).finalFile
        = if old.length < R then some (old ++ g.chunks.flatten)
          else if old.length = R then some old
          else some g.chunks.flatten := by
  intro old R g
  obtain ⟨st, cr, cl, ch, me⟩ := g
  by_cases h1 : old.length < R
  · cases me <;> simp [processFile, planStep, h1]
  · by_cases h2 : old.length = R
    · simp [processFile, planStep, h1, h2]
    · cases me <;> simp [processFile, planStep, h1, h2]

/-- C4: a single file's failure never aborts the batch.  The loop is a
pointwise map: splitting the job list around any job shows the jobs after
it are processed exactly as they would be alone; the result list always
has one outcome per job; and the caught error classes (GET network error,
mid-stream network/filesystem/other exception) each end as a `failed`
outcome for that file only. -/
theorem single_failure_never_aborts_batch :
    (∀ (s : Bool) (pre post : List FileJob) (j : FileJob),
        runBatch s (pre ++ j :: post)
          = runBatch s pre
              ++ processFile s j.localFile j.env :: runBatch s post)
    ∧ (∀ (s : Bool) (jobs : List FileJob),
        (runBatch s jobs).length = jobs.length)
    ∧ (∀ (s : Bool) (hd : HeadResult),
        (processFile s none ⟨hd, .error ()⟩).outcome = .failed .getNetwork)
    ∧ (∀ (s : Bool) (hd : HeadResult) (st : Nat) (cr : Option (Option Nat))
        (cl : Option Nat) (ch : List Bytes) (e : MidErr),
        (processFile s none ⟨hd, .ok ⟨st, cr, cl, ch, some e⟩⟩).outcome
          = .failed (.midStream e)) := by
  refine ⟨?_, ?_, ?_, ?_⟩
  · intro s pre post j
    induction pre with
    | nil => rfl
    | cons p rest ih => simp [runBatch, ih]
  · intro s jobs
    exact runBatch_length s jobs
  · intro s hd
    cases hd with
    | error u => rfl
    | ok r => cases r <;> rfl
  · intro s hd st cr cl ch e
    cases hd with
    | error u => rfl
    | ok r => cases r <;> rfl

/-- C9: the catalog-matching loop partitions the deduplicated wanted list
exactly: the matched entries are the `filterMap` of the lookup over the
wanted names (original order), the missing names are the names whose
lookup fails (original order), the two lengths sum to the wanted list's
length, and the wanted list built from the DAT has no duplicates. -/
theorem compare_partition_exact :
    (∀ (α : Type) (wanted : List String) (avail : String → Option α),
        (compareRoms wanted avail).1 = wanted.filterMap avail
        ∧ (compareRoms wanted avail).2
            = wanted.filter (fun n => (avail n).isNone)
        ∧ (compareRoms wanted avail).1.length
            + (compareRoms wanted avail).2.length = wanted.length)
    ∧ (∀ games : List String, (buildWanted games).Nodup) := by
  constructor
  · intro α wanted avail
    exact ⟨compareRoms_fst wanted avail, compareRoms_snd wanted avail,
      compareRoms_length wanted avail⟩
  · intro games
    exact foldl_addWanted_nodup games [] List.nodup_nil

/-- C10: `scale1024` is total over the integers: the selected power is
always a valid index into the prefix list (so the unit is always one of
the fixed prefixes), non-positive inputs take power zero without touching
the logarithm, and the `min` clamp keeps the index at most the last
position. -/
theorem scale1024_total_and_clamped :
    ∀ val_bytes : Int,
      scalePower val_bytes < prefixes.length
      ∧ (val_bytes ≤ 0 → scalePower val_bytes = 0)
      ∧ scalePower val_bytes ≤ prefixes.length - 1
      ∧ scale1024Unit val_bytes ∈ prefixes := by
  intro v
  have hlt : scalePower v < prefixes.length := by
    unfold scalePower
    split
    · simp [prefixes]
    · have h9 : prefixes.length = 9 := rfl
      rw [h9]
      omega
  refine ⟨hlt, ?_, ?_, ?_⟩
  · intro h
    unfold scalePower
    simp [h]
  · have : prefixes.length = 9 := rfl
    omega
  · unfold scale1024Unit
    rw [List.getD_eq_getElem prefixes "B" hlt]
    exact List.getElem_mem hlt

end Dltool

namespace Dltool

/-- C3 (counterexample): two runs over one wanted file — one where the
transfer succeeds, one where the GET fails — produce different per-file
outcomes but byte-identical end-of-run output: the lines after the loop
(lines 608-622 of the source) are only the completion message and the
missing-ROMs report, so no end-of-run summary partitioned by
downloaded/skipped/failed exists. -/
theorem end_summary_ignores_outcomes_cex :
    (runProgram false false
        [⟨"a", none, ⟨.ok (some 1), .ok ⟨200, none, some 1, [[5]], none⟩⟩⟩]
        []).results
      ≠ (runProgram false false
          [⟨"a", none, ⟨.ok (some 1), .error ()⟩⟩] []).results
    ∧ (runProgram false false
        [⟨"a", none, ⟨.ok (some 1), .ok ⟨200, none, some 1, [[5]], none⟩⟩⟩]
        []).lines
      = (runProgram false false
          [⟨"a", none, ⟨.ok (some 1), .error ()⟩⟩] []).lines := by
  exact ⟨by decide, by decide⟩

/-- C3 (amended): every processed file does end in exactly one of
downloaded/skipped/failed — the three outcome counts over the batch sum
to the number of files — but these outcomes are reported inline during
the loop; the end-of-run output depends only on the number of wanted
files and the missing list, not on the outcome partition. -/
theorem outcome_partition_and_fixed_summary :
    ∀ (f s : Bool) (wf ws : List FileJob) (mr : List String),
      wf.length = ws.length →
      (runProgram f s wf mr).lines = (runProgram f s ws mr).lines
      ∧ ((runBatch s wf).filter (fun r => r.outcome.isDownloaded)).length
          + ((runBatch s wf).filter (fun r => r.outcome.isSkipped)).length
          + ((runBatch s wf).filter (fun r => r.outcome.isFailed)).length
          = wf.length := by
  intro f s wf ws mr hlen
  constructor
  · simp [runProgram, hlen]
  · rw [outcome_counts (runBatch s wf), runBatch_length]

theorem outcome_partition_and_fixed_summary_witness :
    (runProgram false false
        [⟨"a", none, ⟨.ok (some 1), .ok ⟨200, none, some 1, [[5]], none⟩⟩⟩]
        ["x"]).lines
      = (runProgram false false
          [⟨"a", none, ⟨.ok (some 1), .error ()⟩⟩] ["x"]).lines
    ∧ ((runBatch false
          [⟨"a", none, ⟨.ok (some 1), .ok ⟨200, none, some 1, [[5]], none⟩⟩⟩]).filter
            (fun r => r.outcome.isDownloaded)).length
        + ((runBatch false
            [⟨"a", none, ⟨.ok (some 1), .ok ⟨200, none, some 1, [[5]], none⟩⟩⟩]).filter
              (fun r => r.outcome.isSkipped)).length
        + ((runBatch false
            [⟨"a", none, ⟨.ok (some 1), .ok ⟨200, none, some 1, [[5]], none⟩⟩⟩]).filter
              (fun r => r.outcome.isFailed)).length
        = 1 :=
  outcome_partition_and_fixed_summary false false
    [⟨"a", none, ⟨.ok (some 1), .ok ⟨200, none, some 1, [[5]], none⟩⟩⟩]
    [⟨"a", none, ⟨.ok (some 1), .error ()⟩⟩] ["x"] rfl

end Dltool

namespace Dltool

/-- C1: the transfer planner is total and follows the spec's decision
table.  First conjunct: for every combination of local state, HEAD result
and skip-existing flag, the code's branch classification refines the
spec's table §4.3 (so exactly one of the table's outcomes is chosen for
every input).  Second conjunct: with the flag clear, a present local file
of size `L` and a known remote size `R`, the code yields Resume from
offset `L` in append mode when `L < R`, the already-satisfied Skip when
`L = R`, and Restart (truncating write from zero) when `L > R`.  Third
conjunct: the requests actually issued — a byte-range GET starting at `L`
for Resume, no GET at all for the Skip, a plain GET for Restart. -/
theorem plan_decision_table :
    (∀ (s : Bool) (lf : Option Bytes) (h : HeadResult),
        ((planStep s lf h).2).toSpec
          = specPlan (lf.map List.length) (headView h) s)
    ∧ (∀ (c : Bytes) (R : Nat),
        planStep false (some c) (.ok (some R))
          = if c.length < R then
              (⟨true, true, .ab, c.length, some R⟩, .resume c.length)
            else if c.length = R then
              (⟨false, false, .wb, c.length, some R⟩, .skip .alreadySatisfied)
            else
              (⟨true, false, .wb, 0, some R⟩, .restart))
    ∧ (∀ (c : Bytes) (R : Nat) (gr : Except Unit GetResp),
        (processFile false (some c) ⟨.ok (some R), gr⟩).requests
          = if c.length < R then [.head, .get (some c.length)]
            else if c.length = R then [.head]
            else [.head, .get none]) := by
  refine ⟨?_, ?_, ?_⟩
  · intro s lf h
    cases lf with
    | none =>
      cases h with
      | error u => cases s <;> rfl
      | ok r => cases r <;> cases s <;> rfl
    | some c =>
      cases s with
      | true => rfl
      | false =>
        cases h with
        | error u => rfl
        | ok r =>
          cases r with
          | none => rfl
          | some R =>
            by_cases h1 : c.length < R
            · simp [planStep, specPlan, headView, PlanOutcome.toSpec, h1]
            · by_cases h2 : c.length = R
              · simp [planStep, specPlan, headView, PlanOutcome.toSpec, h1, h2]
              · simp [planStep, specPlan, headView, PlanOutcome.toSpec, h1, h2]
  · intro c R
    by_cases h1 : c.length < R
    · simp [planStep, h1]
    · by_cases h2 : c.length = R
      · simp [planStep, h1, h2]
      · simp [planStep, h1, h2]
  · intro c R gr
    by_cases h1 : c.length < R
    · rcases gr with u | g
      · simp [processFile, planStep, h1]
      · obtain ⟨st, cr, cl, ch, me⟩ := g
        cases me <;> simp [processFile, planStep, h1]
    · by_cases h2 : c.length = R
      · simp [processFile, planStep, h1, h2]
      · rcases gr with u | g
        · simp [processFile, planStep, h1, h2]
        · obtain ⟨st, cr, cl, ch, me⟩ := g
          cases me <;> simp [processFile, planStep, h1, h2]

end Dltool

namespace Dltool

lemma processFile_reported_shape (s : Bool) (lf : Option Bytes)
    (env : NetEnv) :
    (processFile s lf env).reported = []
    ∨ ∃ g t, (processFile s lf env).pbarMax = some t
        ∧ (processFile s lf env).reported
            = barReports (planStep s lf env.headResult).1 g t := by
  rcases hP : planStep s lf env.headResult with ⟨v, pl⟩
  cases pl
  case skip r => left; simp [processFile, hP]
  all_goals (
    rcases henv : env.getResult with u | g
    · left
      simp [processFile, hP, henv]
    · rcases hT : effectiveTotal v g with _ | t
      · left
        rcases hme : g.midErr with _ | e <;>
          simp [processFile, hP, henv, hT, hme]
      · by_cases ht : 0 < t
        · right
          refine ⟨g, t, ?_, ?_⟩ <;>
            rcases hme : g.midErr with _ | e <;>
            simp [processFile, hP, henv, hT, hme, ht]
        · left
          rcases hme : g.midErr with _ | e <;>
            simp [processFile, hP, henv, hT, hme, ht])

/-- C6: within one file's transfer, the successive values passed to the
progress display are non-decreasing, and when a total is known (a bar
with `max_value = t` was created) every reported value is at most that
total. -/
theorem progress_reports_monotone :
    ∀ (s : Bool) (lf : Option Bytes) (env : NetEnv),
      List.Chain' (· ≤ ·) ((processFile s lf env).reported)
      ∧ ∀ t : Nat, (processFile s lf env).pbarMax = some t →
          ∀ x ∈ (processFile s lf env).reported, x ≤ t := by
  intro s lf env
  rcases processFile_reported_shape s lf env with h | ⟨g, t, hmax, hrep⟩
  · rw [h]
    refine ⟨List.chain'_nil, ?_⟩
    intro t2 ht2 x hx
    simp at hx
  · rw [hrep]
    constructor
    · exact (barReports_pairwise _ g t).chain'
    · intro t2 hmax2 x hx
      rw [hmax] at hmax2
      injection hmax2 with h2
      have := barReports_mem_le _ g t x hx
      omega

theorem progress_reports_monotone_witness :
    List.Chain' (· ≤ ·)
      ((processFile false none
        ⟨.ok (some 2), .ok ⟨200, none, some 2, [[9]], none⟩⟩).reported)
    ∧ (1 : Nat) ≤ 2 := by
  refine ⟨(progress_reports_monotone false none
      ⟨.ok (some 2), .ok ⟨200, none, some 2, [[9]], none⟩⟩).1, ?_⟩
  exact (progress_reports_monotone false none
      ⟨.ok (some 2), .ok ⟨200, none, some 2, [[9]], none⟩⟩).2 2 (by decide) 1
      (by decide)

/-- C7: a mid-stream exception (network, filesystem or other) during a
transfer that was proceeding leaves the destination exactly as the write
loop left it — the same on-disk contents the attempt would have had if
the stream had ended there — while the attempt itself is reported as
failed; and any such partial file that is smaller than the remote size
seen by a later run makes that run plan a Resume from exactly its
length. -/
theorem midstream_error_preserves_bytes :
    ∀ (s : Bool) (lf : Option Bytes) (hd : HeadResult) (st : Nat)
      (cr : Option (Option Nat)) (cl : Option Nat) (ch : List Bytes)
      (e : MidErr),
      ((planStep s lf hd).2).proceeds = true →
      (processFile s lf ⟨hd, .ok ⟨st, cr, cl, ch, some e⟩⟩).outcome
          = .failed (.midStream e)
      ∧ (processFile s lf ⟨hd, .ok ⟨st, cr, cl, ch, some e⟩⟩).finalFile
          = (processFile s lf ⟨hd, .ok ⟨st, cr, cl, ch, none⟩⟩).finalFile
      ∧ ∀ (w : Bytes) (R2 : Nat),
          (processFile s lf ⟨hd, .ok ⟨st, cr, cl, ch, some e⟩⟩).finalFile
              = some w →
          w.length < R2 →
          (planStep false (some w) (.ok (some R2))).2 = .resume w.length := by
  intro s lf hd st cr cl ch e hpr
  have hres : ∀ (w : Bytes) (R2 : Nat), w.length < R2 →
      (planStep false (some w) (.ok (some R2))).2 = .resume w.length := by
    intro w R2 hlt
    simp [planStep, hlt]
  rcases hP : planStep s lf hd with ⟨v, pl⟩
  cases pl
  case skip r =>
    rw [hP] at hpr
    simp [PlanOutcome.proceeds] at hpr
  all_goals exact ⟨by simp [processFile, hP], by simp [processFile, hP],
    fun w R2 _ hlt => hres w R2 hlt⟩

theorem midstream_error_preserves_bytes_witness :
    (processFile false none
        ⟨.ok (some 2), .ok ⟨200, none, some 2, [[1]], some .network⟩⟩).outcome
      = .failed (.midStream .network)
    ∧ (planStep false (some [1]) (.ok (some 5))).2 = .resume 1 := by
  have h := midstream_error_preserves_bytes false none (.ok (some 2)) 200 none
    (some 2) [[1]] .network (by decide)
  exact ⟨h.1, h.2.2 [1] 5 (by decide) (by decide)⟩

end Dltool

namespace Dltool

theorem scale1024_total_and_clamped_witness :
    scalePower (-5) = 0 ∧ scale1024Unit 2048 ∈ prefixes := by
  exact ⟨(scale1024_total_and_clamped (-5)).2.1 (by decide),
    (scale1024_total_and_clamped 2048).2.2.2⟩

end Dltool
